import Mathlib

/-!
Shallow embedding of the AWS S3 request-signing and credential-resolution
subsystem of `port/cpl_aws.cpp`, together with theorems settling the claims
about it.  Strings are modelled by Lean `String` viewed as its list of
characters (`String.data`); the source operates on 8-bit `char`s, and all
inputs in scope are ASCII, for which the two views agree byte for byte.
The SHA-256 and HMAC-SHA-256 primitives (`cpl_sha256.h`) are external to the
translation unit and are abstracted as function parameters, as the spec
declares them out of scope.
-/

/-- ASCII lowercasing of one character, as C `tolower` in the C locale
(used by `CPLString::tolower`). -/
def asciiLower (c : Char) : Char :=
  if 65 ≤ c.toNat ∧ c.toNat ≤ 90 then Char.ofNat (c.toNat + 32) else c

/-- `CPLString::tolower()`: lowercase every character. -/
def lowerStr (s : String) : String := ⟨s.data.map asciiLower⟩

/-- GDAL `EQUAL(a,b)`: case-insensitive string equality (ASCII). -/
def equalCI (a b : String) : Bool := lowerStr a == lowerStr b

/-- Whitespace set of `CPLString::Trim()` (space, tab, CR, LF). -/
def isTrimSpace (c : Char) : Bool := c == ' ' || c == '\t' || c == '\r' || c == '\n'

/-- `CPLString::Trim()`: strip leading and trailing whitespace. -/
def trimStr (s : String) : String :=
  ⟨((s.data.dropWhile isTrimSpace).reverse.dropWhile isTrimSpace).reverse⟩

/-- GDAL `STARTS_WITH_CI(s, other)` = `EQUALN(s, other, strlen(other))`:
case-insensitive prefix test. -/
def startsWithCI (s other : String) : Bool :=
  (s.data.take other.data.length).map asciiLower == other.data.map asciiLower

/-- Character `n` of `"0123456789abcdef"`, as indexed by `CPLGetLowerCaseHex`. -/
def lowerHexChar (n : Nat) : Char :=
  if n < 10 then Char.ofNat (48 + n) else Char.ofNat (87 + n)

/-- Digit of C `printf("%02X")`: `0`-`9` then uppercase `A`-`F`. -/
def upperHexChar (n : Nat) : Char :=
  if n < 10 then Char.ofNat (48 + n) else Char.ofNat (55 + n)

/-- `CPLGetLowerCaseHex(pabyData, nBytes)` (`cpl_aws.cpp:78`): two lowercase
hex nibbles per byte, high nibble `(b & 0xf0) >> 4` then low nibble `b & 0x0f`. -/
def CPLGetLowerCaseHex (pabyData : List Nat) : String :=
  ⟨pabyData.flatMap (fun b => [lowerHexChar ((b &&& 240) >>> 4), lowerHexChar (b &&& 15)])⟩

/-- UTF-8 bytes of a Lean string, as the byte view of a C string. -/
def strBytes (s : String) : List Nat := s.toUTF8.toList.map (fun b => b.toNat)

/-- `CPLGetLowerCaseHexSHA256(osStr)` (`cpl_aws.cpp:113`), with the external
SHA-256 primitive passed as a parameter. -/
def CPLGetLowerCaseHexSHA256 (sha256 : List Nat → List Nat) (osStr : String) : String :=
  CPLGetLowerCaseHex (sha256 (strBytes osStr))

/-- Unreserved-character test of `CPLAWSURLEncode` (`cpl_aws.cpp:128`):
`A`-`Z`, `a`-`z`, `0`-`9`, `_`, `-`, `~`, `.`. -/
def isURLUnreservedChar (ch : Char) : Bool :=
  decide (('A' ≤ ch ∧ ch ≤ 'Z') ∨ ('a' ≤ ch ∧ ch ≤ 'z') ∨ ('0' ≤ ch ∧ ch ≤ '9') ∨
    ch = '_' ∨ ch = '-' ∨ ch = '~' ∨ ch = '.')

/-- Per-character action of `CPLAWSURLEncode`: unreserved characters pass
through, `/` passes or becomes `%2F` depending on `bEncodeSlash`, anything
else becomes `%` plus the two uppercase hex digits of
`static_cast<unsigned char>(ch)` (hence the `% 256`). -/
def CPLAWSURLEncodeChar (ch : Char) (bEncodeSlash : Bool) : List Char :=
  if isURLUnreservedChar ch then [ch]
  else if ch = '/' then
    if bEncodeSlash then ['%', '2', 'F'] else [ch]
  else
    ['%', upperHexChar ((ch.toNat % 256) / 16), upperHexChar ((ch.toNat % 256) % 16)]

/-- `CPLAWSURLEncode(osURL, bEncodeSlash)` (`cpl_aws.cpp:122`), character list
form: the loop appends the encoding of each character in order. -/
def CPLAWSURLEncode (osURL : List Char) (bEncodeSlash : Bool) : List Char :=
  osURL.flatMap (fun ch => CPLAWSURLEncodeChar ch bEncodeSlash)

/-- `CPLAWSURLEncode` on `String`. -/
def CPLAWSURLEncodeStr (osURL : String) (bEncodeSlash : Bool) : String :=
  ⟨CPLAWSURLEncode osURL.data bEncodeSlash⟩

/-- Insertion into a `std::map<CPLString, CPLString>` held as its sorted
association list (`operator[]=` semantics: replace the value on an existing
key, otherwise insert at the ordered position; `std::string` order is the
byte-lexicographic order, i.e. the order on `String.data`). -/
def mapInsert (k v : String) : List (String × String) → List (String × String)
  | [] => [(k, v)]
  | (k', v') :: rest =>
    if k.data < k'.data then (k, v) :: (k', v') :: rest
    else if k = k' then (k, v) :: rest
    else (k', v') :: mapInsert k v rest

/-- Output loop of `BuildCanonicalizedHeaders` (`cpl_aws.cpp:528`):
`key:value\n` per map entry in map (sorted) order. -/
def renderHeaders (m : List (String × String)) : String :=
  m.foldl (fun acc kv => acc ++ kv.1 ++ ":" ++ kv.2 ++ "\n") ""

/-- Signed-headers loop of `CPLGetAWS_SIGN4_Signature` (`cpl_aws.cpp:219`):
map keys joined by `;` in map order. -/
def signedHeadersOf (m : List (String × String)) : String :=
  m.foldl (fun acc kv => (if acc = "" then acc else acc ++ ";") ++ kv.1) ""

/-- Index of the first occurrence of a character, as `std::string::find`
(`none` for `npos`). -/
def strFindChar (l : List Char) (target : Char) : Option Nat :=
  match l with
  | [] => none
  | c :: t => if c == target then some 0 else (strFindChar t target).map (· + 1)

/-- Split one raw header `"Name: Value"` at its first `:` (`strstr(data, ":")`);
key is the part before, value is the `Trim`med part after. `none` when the
header has no colon (such headers are skipped). -/
def splitHeaderLine (data : String) : Option (String × String) :=
  match strFindChar data.data ':' with
  | none => none
  | some n => some (⟨data.data.take n⟩, trimStr ⟨data.data.drop (n + 1)⟩)

/-- Filter of `BuildCanonicalizedHeaders` (`cpl_aws.cpp:514`): keep raw
headers starting case-insensitively with the given header-name stem
(`"x-amz-"` for S3) or with `"Content-MD5"`. -/
def headerMatchesCanonical (stem data : String) : Bool :=
  startsWithCI data stem || startsWithCI data "Content-MD5"

/-- Body of the folding loop of `BuildCanonicalizedHeaders`: a matching
header with a colon is inserted into the sorted map under its lowercased
name, with trimmed value; anything else leaves the map unchanged. -/
def canonicalFoldStep (stem : String) (m : List (String × String)) (data : String) :
    List (String × String) :=
  if headerMatchesCanonical stem data then
    match splitHeaderLine data with
    | some kv => mapInsert (lowerStr kv.1) kv.2 m
    | none => m
  else m

/-- Folding phase of `IVSIS3LikeHandleHelper::BuildCanonicalizedHeaders`
(`cpl_aws.cpp:511`-`526`): the existing-headers list is walked in order,
mutating the caller's sorted map. -/
def foldExistingHeaders (oSortedMapHeaders : List (String × String))
    (psExistingHeaders : List String) (stem : String) : List (String × String) :=
  psExistingHeaders.foldl (canonicalFoldStep stem) oSortedMapHeaders

/-- `IVSIS3LikeHandleHelper::BuildCanonicalizedHeaders` (`cpl_aws.cpp:506`):
fold the matching existing headers into the sorted map, then render
`key:value\n` lines in sorted key order. -/
def BuildCanonicalizedHeaders (oSortedMapHeaders : List (String × String))
    (psExistingHeaders : List String) (stem : String) : String :=
  renderHeaders (foldExistingHeaders oSortedMapHeaders psExistingHeaders stem)

/-- Entry contributed to the canonical-header map by one raw existing header,
if any: matching headers with a colon contribute their lowercased name and
trimmed value. -/
def canonicalFoldEntry (stem data : String) : Option (String × String) :=
  if headerMatchesCanonical stem data then
    (splitHeaderLine data).map (fun kv => (lowerStr kv.1, kv.2))
  else none

/-- `CPLString::resize(n)`: truncate to `n` characters, padding with NUL
when the string is shorter than `n`. -/
def cplStringResize (s : String) (n : Nat) : String :=
  ⟨s.data.take n ++ List.replicate (n - s.data.length) (Char.ofNat 0)⟩

/-- Base sorted header map of `CPLGetAWS_SIGN4_Signature`
(`cpl_aws.cpp:200`-`210`): `host`, then (for signed payloads when requested)
`x-amz-content-sha256` and `x-amz-date`, then `x-amz-request-payer` and
`x-amz-security-token` when non-empty. -/
def sigV4BaseHeaders (osHost osAccessToken osRequestPayer osXAMZContentSHA256 : String)
    (bAddHeaderAMZContentSHA256 : Bool) (osTimestamp : String) : List (String × String) :=
  let m0 := mapInsert "host" osHost []
  let m1 :=
    if osXAMZContentSHA256 ≠ "UNSIGNED-PAYLOAD" ∧ bAddHeaderAMZContentSHA256 then
      mapInsert "x-amz-date" osTimestamp (mapInsert "x-amz-content-sha256" osXAMZContentSHA256 m0)
    else m0
  let m2 := if osRequestPayer ≠ "" then mapInsert "x-amz-request-payer" osRequestPayer m1 else m1
  if osAccessToken ≠ "" then mapInsert "x-amz-security-token" osAccessToken m2 else m2

/-- Canonical request of `CPLGetAWS_SIGN4_Signature` (`cpl_aws.cpp:194`-`230`):
verb, canonical URI, canonical query string, canonical headers, signed-headers
list and payload hash, each terminated by `\n` except the last. -/
def sigV4CanonicalRequest (osVerb osCanonicalURI osCanonicalQueryString
    osCanonicalizedHeaders osSignedHeaders osXAMZContentSHA256 : String) : String :=
  osVerb ++ "\n" ++ osCanonicalURI ++ "\n" ++ osCanonicalQueryString ++ "\n" ++
    osCanonicalizedHeaders ++ "\n" ++ osSignedHeaders ++ "\n" ++ osXAMZContentSHA256

/-- `CPLGetAWS_SIGN4_Signature` (`cpl_aws.cpp:175`-`305`), with the external
HMAC-SHA-256 and SHA-256 primitives as parameters.  Returns the signature
together with the signed-headers list (the C++ out-parameter
`osSignedHeaders`), which is read from the map after
`BuildCanonicalizedHeaders` has folded the existing headers into it. -/
def CPLGetAWS_SIGN4_Signature
    (hmac : List Nat → List Nat → List Nat) (sha256 : List Nat → List Nat)
    (osSecretAccessKey osAccessToken osRegion osRequestPayer osService osVerb : String)
    (psExistingHeaders : List String)
    (osHost osCanonicalURI osCanonicalQueryString osXAMZContentSHA256 : String)
    (bAddHeaderAMZContentSHA256 : Bool) (osTimestamp : String) : String × String :=
  let oSortedMapHeaders :=
    sigV4BaseHeaders osHost osAccessToken osRequestPayer osXAMZContentSHA256
      bAddHeaderAMZContentSHA256 osTimestamp
  let oMapAfterFold := foldExistingHeaders oSortedMapHeaders psExistingHeaders "x-amz-"
  let osCanonicalizedHeaders := renderHeaders oMapAfterFold
  let osSignedHeaders := signedHeadersOf oMapAfterFold
  let osCanonicalRequest :=
    sigV4CanonicalRequest osVerb osCanonicalURI osCanonicalQueryString
      osCanonicalizedHeaders osSignedHeaders osXAMZContentSHA256
  let osYYMMDD := cplStringResize osTimestamp 8
  let osScope := osYYMMDD ++ "/" ++ osRegion ++ "/" ++ osService ++ "/aws4_request"
  let osStringToSign :=
    "AWS4-HMAC-SHA256\n" ++ osTimestamp ++ "\n" ++ osScope ++ "\n" ++
      CPLGetLowerCaseHexSHA256 sha256 osCanonicalRequest
  let abySigningKey1 := hmac (strBytes ("AWS4" ++ osSecretAccessKey)) (strBytes osYYMMDD)
  let abySigningKey2 := hmac abySigningKey1 (strBytes osRegion)
  let abySigningKey3 := hmac abySigningKey2 (strBytes osService)
  let abySigningKey4 := hmac abySigningKey3 (strBytes "aws4_request")
  let osSignature := CPLGetLowerCaseHex (hmac abySigningKey4 (strBytes osStringToSign))
  (osSignature, osSignedHeaders)

/-- Cached-credential reuse decision shared verbatim by
`GetConfigurationFromAssumeRoleWithWebIdentity` (`cpl_aws.cpp:770`-`783`),
`GetConfigurationFromEC2` (`cpl_aws.cpp:881`-`893`) and
`GetOrRefreshTemporaryCredentialsForRole` (`cpl_aws.cpp:1443`-`1456`):
on a non-forced read, the cached credentials are reused exactly when the
cached access key id is non-empty and `nCurTime < gnGlobalExpiration - 60`
("keep one minute of margin"); otherwise the function proceeds to refresh. -/
def credentialCacheReuse (bForceRefresh : Bool) (gosGlobalAccessKeyId : String)
    (nCurTime gnGlobalExpiration : Int) : Bool :=
  if bForceRefresh then false
  else if gosGlobalAccessKeyId ≠ "" ∧ nCurTime < gnGlobalExpiration - 60 then true
  else false

/-- `UpdateAndWarnIfInconsistent` (`cpl_aws.cpp:1066`): the running value
(from the credentials file) wins when non-empty; a warning (the `CPLError`
naming both osCredentials and osConfig) is emitted only when both values are
non-empty and differ.  Returns the kept value and whether the warning fired. -/
def UpdateAndWarnIfInconsistent (osVal osNewVal : String) : String × Bool :=
  if osVal = "" then (osNewVal, false)
  else if osVal ≠ osNewVal then (osVal, true)
  else (osVal, false)

/-- Accumulator of `GetConfigurationFromAWSConfigFiles`: the out-parameters
seeded by `ReadAWSCredentials` from the credentials file, then updated while
walking the `key = value` pairs of the selected profile of the config file;
`warnedKeys` records the keywords for which the inconsistency warning fired. -/
structure AWSConfigAccum where
  osAccessKeyId : String
  osSecretAccessKey : String
  osSessionToken : String
  osRegion : String
  osRoleArn : String
  osSourceProfile : String
  osExternalId : String
  osMFASerial : String
  osRoleSessionName : String
  osWebIdentityTokenFile : String
  warnedKeys : List String
  deriving DecidableEq

/-- One iteration of the config-file key dispatch
(`cpl_aws.cpp:1247`-`1299`): the three credential keys go through
`UpdateAndWarnIfInconsistent` (matched case-insensitively by `EQUAL`), the
role/profile keys are matched case-sensitively by `strcmp` and overwrite. -/
def mergeConfigEntry (acc : AWSConfigAccum) (kv : String × String) : AWSConfigAccum :=
  let pszKey := kv.1
  let pszValue := kv.2
  if equalCI pszKey "aws_access_key_id" then
    let r := UpdateAndWarnIfInconsistent acc.osAccessKeyId pszValue
    { acc with osAccessKeyId := r.1,
               warnedKeys := acc.warnedKeys ++ (if r.2 then [pszKey] else []) }
  else if equalCI pszKey "aws_secret_access_key" then
    let r := UpdateAndWarnIfInconsistent acc.osSecretAccessKey pszValue
    { acc with osSecretAccessKey := r.1,
               warnedKeys := acc.warnedKeys ++ (if r.2 then [pszKey] else []) }
  else if equalCI pszKey "aws_session_token" then
    let r := UpdateAndWarnIfInconsistent acc.osSessionToken pszValue
    { acc with osSessionToken := r.1,
               warnedKeys := acc.warnedKeys ++ (if r.2 then [pszKey] else []) }
  else if equalCI pszKey "region" then { acc with osRegion := pszValue }
  else if pszKey = "role_arn" then { acc with osRoleArn := pszValue }
  else if pszKey = "source_profile" then { acc with osSourceProfile := pszValue }
  else if pszKey = "external_id" then { acc with osExternalId := pszValue }
  else if pszKey = "mfa_serial" then { acc with osMFASerial := pszValue }
  else if pszKey = "role_session_name" then { acc with osRoleSessionName := pszValue }
  else if pszKey = "web_identity_token_file" then { acc with osWebIdentityTokenFile := pszValue }
  else acc

/-- Config-file pass of `GetConfigurationFromAWSConfigFiles`
(`cpl_aws.cpp:1227`-`1302`) over the parsed `key = value` pairs of the
selected profile section, starting from the credentials-file results. -/
def mergeConfigFile (acc : AWSConfigAccum) (entries : List (String × String)) : AWSConfigAccum :=
  entries.foldl mergeConfigEntry acc

/-- Outcome of `IVSIS3LikeHandleHelper::GetBucketAndObjectKey`: success with
the two out-parameters, plain `return false` (empty input), or `return false`
after the `CPLError(CE_Failure, CPLE_AppDefined, ...)` call. -/
inductive BucketKeyOutcome where
  | success (osBucket osObjectKey : String)
  | failureNoError
  | failureAppDefined
  deriving DecidableEq

/-- `IVSIS3LikeHandleHelper::GetBucketAndObjectKey` (`cpl_aws.cpp:474`):
reject an empty URI; with no `/`, succeed with empty key iff
`bAllowNoObject`, else emit the AppDefined error; otherwise split at the
first `/`. -/
def GetBucketAndObjectKey (pszURI : String) (bAllowNoObject : Bool) : BucketKeyOutcome :=
  if pszURI = "" then .failureNoError
  else
    match strFindChar pszURI.data '/' with
    | none => if bAllowNoObject then .success pszURI "" else .failureAppDefined
    | some nPos => .success ⟨pszURI.data.take nPos⟩ ⟨pszURI.data.drop (nPos + 1)⟩

/-- `VSIS3HandleHelper::BuildURL` (`cpl_aws.cpp:438`):
`<scheme>://<endpoint>` for an empty bucket, virtual-hosting
`<scheme>://<bucket>.<endpoint>/<key>`, or path-style
`<scheme>://<endpoint>/<bucket>/<key>`, with the key URL-encoded keeping `/`. -/
def BuildURL (osEndpoint osBucket osObjectKey : String)
    (bUseHTTPS bUseVirtualHosting : Bool) : String :=
  let pszProtocol := if bUseHTTPS then "https" else "http"
  if osBucket = "" then pszProtocol ++ "://" ++ osEndpoint
  else if bUseVirtualHosting then
    pszProtocol ++ "://" ++ osBucket ++ "." ++ osEndpoint ++ "/" ++
      CPLAWSURLEncodeStr osObjectKey false
  else
    pszProtocol ++ "://" ++ osEndpoint ++ "/" ++ osBucket ++ "/" ++
      CPLAWSURLEncodeStr osObjectKey false

/-- Modelled from the spec: `CPLTestBool` (cpl_string, outside `src/`)
evaluates the truthy option values used for `AWS_HTTPS` and
`AWS_VIRTUAL_HOSTING`; it is false exactly for the values `NO`, `FALSE`,
`OFF` and `0` (case-insensitively) and true otherwise. -/
def CPLTestBool (pszValue : String) : Bool :=
  !(equalCI pszValue "NO" || equalCI pszValue "FALSE" ||
    equalCI pszValue "OFF" || equalCI pszValue "0")

/-- Virtual-hosting resolution of `VSIS3HandleHelper::BuildFromURI`
(`cpl_aws.cpp:1814`-`1819`): the `AWS_VIRTUAL_HOSTING` option when set,
else the default `"TRUE"` iff the bucket name contains no `.`, the result
fed through `CPLTestBool`. -/
def bUseVirtualHostingOf (awsVirtualHostingOption : Option String) (osBucket : String) : Bool :=
  let bIsValidNameForVirtualHosting := strFindChar osBucket.data '.' = none
  CPLTestBool
    (awsVirtualHostingOption.getD (if bIsValidNameForVirtualHosting then "TRUE" else "FALSE"))

/-- Fields of `VSIS3HandleHelper` read or written by its destructor and by
`CanRestartOnError` / `SetEndpoint` / `SetRegion` / `SetVirtualHosting`. -/
structure VSIS3HandleState where
  m_osSecretAccessKey : String
  m_osAccessKeyId : String
  m_osSessionToken : String
  m_osEndpoint : String
  m_osRegion : String
  m_osRequestPayer : String
  m_osBucket : String
  m_osObjectKey : String
  m_bUseHTTPS : Bool
  m_bUseVirtualHosting : Bool
  deriving DecidableEq

/-- `VSIS3HandleHelper::~VSIS3HandleHelper` (`cpl_aws.cpp:428`): the loop
overwrites every character of `m_osSecretAccessKey` with 0; no other field
is touched. -/
def destructVSIS3HandleHelper (st : VSIS3HandleState) : VSIS3HandleState :=
  { st with m_osSecretAccessKey := ⟨st.m_osSecretAccessKey.data.map (fun _ => Char.ofNat 0)⟩ }

/-- Result of the external XML accessors on the `<Error>` response body, as
read by `CanRestartOnError` via `CPLGetXMLValue` (`=Error.Code`,
`=Error.Region`, `=Error.Endpoint`); XML parsing itself is an external
collaborator per the spec. -/
structure AWSErrorResponse where
  errorCode : Option String
  errorRegion : Option String
  errorEndpoint : Option String

/-- Suffix of `hay` right after the first occurrence of `pat`
(`strstr(hay, pat) + strlen(pat)`), or `none` when `pat` does not occur. -/
def dropAfterFirst (hay pat : List Char) : Option (List Char) :=
  if pat.isPrefixOf hay then some (hay.drop pat.length)
  else
    match hay with
    | [] => none
    | _ :: t => dropAfterFirst t pat
termination_by hay.length

/-- Header-block scan of `CanRestartOnError` (`cpl_aws.cpp:2111`-`2118`):
the text after `"x-amz-bucket-region: "`, truncated at the first CR. -/
def getBucketRegionFromHeaders (pszHeaders : Option String) : Option String :=
  pszHeaders.bind (fun h =>
    (dropAfterFirst h.data ("x-amz-bucket-region: ".data)).map
      (fun rest => ⟨rest.takeWhile (fun c => c != '\r')⟩))

/-- `VSIS3HandleHelper::CanRestartOnError` (`cpl_aws.cpp:2017`-`2168`) from
the point where the `<Error>` XML has been parsed (`cpl_aws.cpp:2050`
onwards).  Returns (restart?, new handle state, update per-bucket map?);
the error-mapping side effects on non-restart paths are not modelled. -/
def CanRestartOnError (st : VSIS3HandleState) (resp : AWSErrorResponse)
    (pszHeaders : Option String) : Bool × VSIS3HandleState × Bool :=
  match resp.errorCode with
  | none => (false, st, true)
  | some pszCode =>
    if equalCI pszCode "AuthorizationHeaderMalformed" then
      match resp.errorRegion with
      | none => (false, st, true)
      | some r => (true, { st with m_osRegion := r }, true)
    else if equalCI pszCode "PermanentRedirect" || equalCI pszCode "TemporaryRedirect" then
      let bIsTemporaryRedirect := equalCI pszCode "TemporaryRedirect"
      match resp.errorEndpoint with
      | none => (false, st, true)
      | some ep =>
        if st.m_bUseVirtualHosting ∧ ¬((st.m_osBucket ++ ".").data.isPrefixOf ep.data) then
          (false, st, true)
        else if ¬st.m_bUseVirtualHosting ∧ (st.m_osBucket ++ ".").data.isPrefixOf ep.data ∧
            (strFindChar st.m_osBucket.data '.').isSome ∧
            (getBucketRegionFromHeaders pszHeaders).isSome then
          let osRegion := (getBucketRegionFromHeaders pszHeaders).getD ""
          (true,
           { st with m_osEndpoint := "s3." ++ osRegion ++ ".amazonaws.com",
                     m_osRegion := osRegion },
           !bIsTemporaryRedirect)
        else
          let newVH :=
            if ¬st.m_bUseVirtualHosting ∧ (st.m_osBucket ++ ".").data.isPrefixOf ep.data then
              true
            else st.m_bUseVirtualHosting
          let newEndpoint :=
            if newVH then (⟨ep.data.drop (st.m_osBucket.length + 1)⟩ : String) else ep
          (true,
           { st with m_bUseVirtualHosting := newVH, m_osEndpoint := newEndpoint },
           !bIsTemporaryRedirect)
    else (false, st, true)

/-- `CPLStringList::operator[]` as used by `ParseSimpleJson`
(`cpl_aws.cpp:589`).  Modelled from the spec: `CPLStringList` lives outside
`src/`; its indexing is bound-checked and yields the null sentinel out of
range, which `SetNameValue` then treats as absence of a value. -/
def cplStringListGet (oWords : List String) (i : Nat) : Option String := oWords.get? i

/-- Index pairs touched by the `ParseSimpleJson` pairing loop
(`for(int i = 0; i < oWords.size(); i += 2)` reading `oWords[i]` and
`oWords[i+1]`, `cpl_aws.cpp:587`-`590`), for a token count `n`. -/
def parseSimpleJsonIndices (n i : Nat) : List Nat :=
  if i < n then i :: (i + 1) :: parseSimpleJsonIndices n (i + 2) else []
termination_by n - i

/-- Pairing loop of `ParseSimpleJson` (`cpl_aws.cpp:587`-`590`) in the total
embedding: names are read in bounds, values through the bound-checked
accessor (a `none` value is the null sentinel of the final read of an
odd-length token list). -/
def parseSimpleJsonPairs (oWords : List String) (i : Nat) : List (String × Option String) :=
  if i < oWords.length then
    ((cplStringListGet oWords i).getD "", cplStringListGet oWords (i + 1)) ::
      parseSimpleJsonPairs oWords (i + 2)
  else []
termination_by oWords.length - i

/-- Structural description of the pairing loop: consecutive tokens are
paired, a trailing unpaired token gets no value. -/
def pairsOfTokens : List String → List (String × Option String)
  | [] => []
  | [a] => [(a, none)]
  | a :: b :: rest => (a, some b) :: pairsOfTokens rest

/-! ## Helper lemmas -/

/-- Two distinct strings have distinct data lists. -/
theorem data_ne_of_ne {a b : String} (h : a ≠ b) : a.data ≠ b.data :=
  fun hh => h (String.ext hh)

/-- Strings whose data lists compare strictly are distinct. -/
theorem ne_of_data_lt {a b : String} (h : a.data < b.data) : a ≠ b :=
  fun hh => absurd (hh ▸ h) (lt_irrefl _)

/-- `CPLString::resize(n)` on a string of length at least `n` takes the first
`n` characters. -/
theorem cplStringResize_of_le (s : String) (n : Nat) (h : n ≤ s.length) :
    cplStringResize s n = ⟨s.data.take n⟩ := by
  unfold cplStringResize
  rw [show n - s.data.length = 0 from Nat.sub_eq_zero_of_le h, List.replicate_zero,
    List.append_nil]

/-! ## C2: URL encoding -/

/-- C2: `CPLAWSURLEncode` leaves every unreserved byte (`A`-`Z`, `a`-`z`,
`0`-`9`, `_`, `-`, `~`, `.`) unchanged, maps `/` to itself when
`bEncodeSlash` is false and to `%2F` when true, maps every other byte to `%`
followed by the two uppercase hex digits of the byte, acts independently on
each character, and is consequently idempotent on strings made only of
unreserved bytes. -/
theorem urlEncode_characterization (bEncodeSlash : Bool) :
    (∀ s : List Char, (∀ c ∈ s, isURLUnreservedChar c = true) →
      CPLAWSURLEncode s bEncodeSlash = s) ∧
    (CPLAWSURLEncode ['/'] false = ['/']) ∧
    (CPLAWSURLEncode ['/'] true = ['%', '2', 'F']) ∧
    (∀ c : Char, isURLUnreservedChar c = false → c ≠ '/' →
      CPLAWSURLEncode [c] bEncodeSlash =
        ['%', upperHexChar ((c.toNat % 256) / 16), upperHexChar ((c.toNat % 256) % 16)]) ∧
    (∀ s : List Char, CPLAWSURLEncode s bEncodeSlash =
      s.flatMap (fun c => CPLAWSURLEncode [c] bEncodeSlash)) ∧
    (∀ s : List Char, (∀ c ∈ s, isURLUnreservedChar c = true) →
      CPLAWSURLEncode (CPLAWSURLEncode s bEncodeSlash) bEncodeSlash =
        CPLAWSURLEncode s bEncodeSlash) := by
  have hunres : ∀ s : List Char, (∀ c ∈ s, isURLUnreservedChar c = true) →
      CPLAWSURLEncode s bEncodeSlash = s := by
    intro s hs
    induction s with
    | nil => rfl
    | cons c t ih =>
      have hc := hs c (List.mem_cons_self c t)
      have ht := ih (fun x hx => hs x (List.mem_cons_of_mem c hx))
      simp [CPLAWSURLEncode, CPLAWSURLEncodeChar, hc] at ht ⊢
      exact ht
  refine ⟨hunres, by decide, by decide, ?_, ?_, ?_⟩
  · intro c h1 h2
    simp [CPLAWSURLEncode, CPLAWSURLEncodeChar, h1, h2]
  · intro s
    induction s with
    | nil => rfl
    | cons c t ih => simp [CPLAWSURLEncode] at ih ⊢
  · intro s hs
    rw [hunres s hs, hunres s hs]

/-- Witness for C2 at a concrete unreserved string. -/
theorem urlEncode_characterization_witness :
    CPLAWSURLEncode ['A', '.', 'z'] true = ['A', '.', 'z'] :=
  (urlEncode_characterization true).1 ['A', '.', 'z'] (by decide)

/-! ## C4: credential-cache expiry -/

/-- C4: on a non-forced cache read with a non-empty cached access key id,
an observed expiration below `now + 60` forces a refresh (no reuse), more
than 60 seconds of remaining validity yields reuse; concretely, a read at
`now = T - 61` reuses and a read at `now = T - 59` refreshes. -/
theorem credentialCacheReuse_expiry (gosGlobalAccessKeyId : String)
    (nCurTime gnGlobalExpiration : Int) (hkey : gosGlobalAccessKeyId ≠ "") :
    (gnGlobalExpiration < nCurTime + 60 →
      credentialCacheReuse false gosGlobalAccessKeyId nCurTime gnGlobalExpiration = false) ∧
    (nCurTime + 60 < gnGlobalExpiration →
      credentialCacheReuse false gosGlobalAccessKeyId nCurTime gnGlobalExpiration = true) ∧
    credentialCacheReuse false gosGlobalAccessKeyId (gnGlobalExpiration - 61)
      gnGlobalExpiration = true ∧
    credentialCacheReuse false gosGlobalAccessKeyId (gnGlobalExpiration - 59)
      gnGlobalExpiration = false := by
  unfold credentialCacheReuse
  refine ⟨fun h => ?_, fun h => ?_, ?_, ?_⟩
  · rw [if_neg (by simp), if_neg (by rintro ⟨-, hlt⟩; omega)]
  · rw [if_neg (by simp), if_pos ⟨hkey, by omega⟩]
  · rw [if_neg (by simp), if_pos ⟨hkey, by omega⟩]
  · rw [if_neg (by simp), if_neg (by rintro ⟨-, hlt⟩; omega)]

/-- Witness for C4 at a concrete key and expiration time. -/
theorem credentialCacheReuse_expiry_witness :
    credentialCacheReuse false "AKID" (100000 - 61) 100000 = true ∧
    credentialCacheReuse false "AKID" (100000 - 59) 100000 = false :=
  ⟨(credentialCacheReuse_expiry "AKID" (100000 - 61) 100000 (by decide)).2.2.1,
   (credentialCacheReuse_expiry "AKID" (100000 - 59) 100000 (by decide)).2.2.2⟩

/-! ## C9: destructor zeroization -/

/-- Concrete handle used to exhibit the destructor's behavior. -/
def c9SampleHandle : VSIS3HandleState :=
  { m_osSecretAccessKey := "SECRET", m_osAccessKeyId := "AKID",
    m_osSessionToken := "tok", m_osEndpoint := "s3.amazonaws.com",
    m_osRegion := "us-east-1", m_osRequestPayer := "", m_osBucket := "bkt",
    m_osObjectKey := "key", m_bUseHTTPS := true, m_bUseVirtualHosting := true }

/-- C9 counterexample: after destruction, the session token of a concrete
handle is untouched and still holds non-zero bytes, so not all secret
material is overwritten with zeros. -/
theorem destruct_counterexample :
    (destructVSIS3HandleHelper c9SampleHandle).m_osSessionToken = "tok" ∧
    ¬(∀ c ∈ (destructVSIS3HandleHelper c9SampleHandle).m_osSessionToken.data,
        c = Char.ofNat 0) := by
  constructor
  · rfl
  · decide

/-- C9 amended: the destructor overwrites every byte of the stored secret
access key with zeros (length preserved); the session token and access key
id are left unchanged. -/
theorem destruct_zeroes_secret (st : VSIS3HandleState) :
    (destructVSIS3HandleHelper st).m_osSecretAccessKey.data =
      List.replicate st.m_osSecretAccessKey.length (Char.ofNat 0) ∧
    (destructVSIS3HandleHelper st).m_osSessionToken = st.m_osSessionToken ∧
    (destructVSIS3HandleHelper st).m_osAccessKeyId = st.m_osAccessKeyId := by
  refine ⟨?_, rfl, rfl⟩
  show st.m_osSecretAccessKey.data.map (fun _ => Char.ofNat 0) = _
  rw [List.map_const']
  rfl

/-! ## C10: ParseSimpleJson pairing loop -/

/-- Fueled bound on the indices touched by the pairing loop: every index is
in bounds except possibly the final value index, which can equal the token
count only when the remaining count is odd. -/
theorem mem_parseSimpleJsonIndices_aux :
    ∀ (fuel n i j : Nat), n - i ≤ fuel → j ∈ parseSimpleJsonIndices n i →
      j < n ∨ (j = n ∧ (n - i) % 2 = 1) := by
  intro fuel
  induction fuel with
  | zero =>
    intro n i j hle hj
    rw [parseSimpleJsonIndices, if_neg (by omega)] at hj
    exact absurd hj (List.not_mem_nil j)
  | succ f ih =>
    intro n i j hle hj
    by_cases hin : i < n
    · rw [parseSimpleJsonIndices, if_pos hin] at hj
      rcases List.mem_cons.mp hj with rfl | hj
      · exact Or.inl hin
      rcases List.mem_cons.mp hj with rfl | hj
      · by_cases h2 : i + 1 < n
        · exact Or.inl h2
        · exact Or.inr ⟨by omega, by omega⟩
      · rcases ih n (i + 2) j (by omega) hj with h | ⟨rfl, hm⟩
        · exact Or.inl h
        · exact Or.inr ⟨rfl, by omega⟩
    · rw [parseSimpleJsonIndices, if_neg hin] at hj
      exact absurd hj (List.not_mem_nil j)

/-- Fueled agreement of the index-stepping loop with the structural pairing
of consecutive tokens. -/
theorem parseSimpleJsonPairs_drop :
    ∀ (fuel : Nat) (ws : List String) (i : Nat), ws.length - i ≤ fuel →
      parseSimpleJsonPairs ws i = pairsOfTokens (ws.drop i) := by
  intro fuel
  induction fuel with
  | zero =>
    intro ws i hle
    rw [parseSimpleJsonPairs, if_neg (by omega), List.drop_eq_nil_of_le (by omega)]
    rfl
  | succ f ih =>
    intro ws i hle
    by_cases hin : i < ws.length
    · rw [parseSimpleJsonPairs, if_pos hin]
      have hdrop : ws.drop i = ws[i] :: ws.drop (i + 1) := List.drop_eq_getElem_cons hin
      by_cases hin2 : i + 1 < ws.length
      · have hdrop2 : ws.drop (i + 1) = ws[i + 1] :: ws.drop (i + 2) :=
          List.drop_eq_getElem_cons hin2
        rw [hdrop, hdrop2, ih ws (i + 2) (by omega)]
        simp [cplStringListGet, pairsOfTokens, List.get?_eq_getElem?,
          List.getElem?_eq_getElem, hin, hin2]
      · have hdrop2 : ws.drop (i + 1) = [] := List.drop_eq_nil_of_le (by omega)
        rw [hdrop, hdrop2, ih ws (i + 2) (by omega), List.drop_eq_nil_of_le (by omega)]
        simp [cplStringListGet, pairsOfTokens, List.get?_eq_getElem?,
          List.getElem?_eq_getElem, hin, List.getElem?_eq_none (by omega : ws.length ≤ i + 1)]
    · rw [parseSimpleJsonPairs, if_neg hin, List.drop_eq_nil_of_le (by omega)]
      rfl

/-- C10: the `ParseSimpleJson` pairing loop only touches token indices that
are in bounds, except that for an odd token count its final value read is at
the index equal to the token count; in the total embedding that read yields
the handled null sentinel and the loop computes exactly the pairing of
consecutive tokens (no unhandled error). -/
theorem parseSimpleJson_loop_safe (oWords : List String) :
    (∀ j ∈ parseSimpleJsonIndices oWords.length 0,
      j < oWords.length ∨ (j = oWords.length ∧ oWords.length % 2 = 1)) ∧
    parseSimpleJsonPairs oWords 0 = pairsOfTokens oWords := by
  constructor
  · intro j hj
    simpa using mem_parseSimpleJsonIndices_aux oWords.length oWords.length 0 j (by omega) hj
  · simpa using parseSimpleJsonPairs_drop oWords.length oWords 0 (by omega)

/-! ## C6: bucket/key split -/

/-- `strFindChar` misses exactly the absent characters. -/
theorem strFindChar_none_iff {l : List Char} {target : Char} :
    strFindChar l target = none ↔ target ∉ l := by
  induction l with
  | nil => simp [strFindChar]
  | cons c t ih =>
    by_cases hc : c = target
    · subst hc; simp [strFindChar]
    · have hb : (c == target) = false := by simp [hc]
      simp only [strFindChar, hb, Bool.false_eq_true, if_false, Option.map_eq_none', ih,
        List.mem_cons, not_or]
      exact ⟨fun ht => ⟨fun he => hc he.symm, ht⟩, fun hp => hp.2⟩

/-- When the character occurs, `strFindChar` locates the first occurrence:
the prefix before it is `takeWhile (· ≠ target)` and the suffix after it is
the tail of `dropWhile (· ≠ target)`. -/
theorem strFindChar_first_split {l : List Char} {target : Char} (h : target ∈ l) :
    ∃ n, strFindChar l target = some n ∧
      l.take n = l.takeWhile (fun c => c != target) ∧
      l.drop (n + 1) = (l.dropWhile (fun c => c != target)).drop 1 := by
  induction l with
  | nil => cases h
  | cons c t ih =>
    by_cases hc : c = target
    · subst hc
      exact ⟨0, by simp [strFindChar], by simp [List.takeWhile_cons], by simp [List.dropWhile_cons]⟩
    · have hb : (c == target) = false := by simp [hc]
      have ht : target ∈ t := by
        rcases List.mem_cons.mp h with rfl | ht
        · exact absurd rfl hc
        · exact ht
      obtain ⟨n, hfind, htake, hdrop⟩ := ih ht
      refine ⟨n + 1, ?_, ?_, ?_⟩
      · simp [strFindChar, hb, hfind]
      · simp [List.takeWhile_cons, hb, hc, List.take_succ_cons, htake]
      · simp [List.dropWhile_cons, hb, hc, List.drop_succ_cons, hdrop]

/-- C6 counterexample: a URI beginning with `/` yields an empty bucket yet
succeeds, so an empty bucket is not rejected. -/
theorem getBucketAndObjectKey_counterexample :
    GetBucketAndObjectKey "/key" false = BucketKeyOutcome.success "" "key" := by
  decide

/-- C6 amended: `GetBucketAndObjectKey` rejects (returns false for) an empty
URI; with no `/` it succeeds with an empty object key iff `bAllowNoObject`
and otherwise fails with the AppDefined error; with a `/` present the bucket
is the prefix before the first `/` and the key is everything after it. -/
theorem getBucketAndObjectKey_spec (pszURI : String) (bAllowNoObject : Bool) :
    (pszURI = "" → GetBucketAndObjectKey pszURI bAllowNoObject = .failureNoError) ∧
    (pszURI ≠ "" → '/' ∉ pszURI.data →
      GetBucketAndObjectKey pszURI bAllowNoObject =
        (if bAllowNoObject then .success pszURI "" else .failureAppDefined)) ∧
    (pszURI ≠ "" → '/' ∈ pszURI.data →
      GetBucketAndObjectKey pszURI bAllowNoObject =
        .success ⟨pszURI.data.takeWhile (fun c => c != '/')⟩
          ⟨(pszURI.data.dropWhile (fun c => c != '/')).drop 1⟩) := by
  refine ⟨fun h => ?_, fun h hn => ?_, fun h hm => ?_⟩
  · rw [GetBucketAndObjectKey, if_pos h]
  · rw [GetBucketAndObjectKey, if_neg h, strFindChar_none_iff.mpr hn]
  · obtain ⟨n, hfind, htake, hdrop⟩ := strFindChar_first_split hm
    rw [GetBucketAndObjectKey, if_neg h, hfind]
    show BucketKeyOutcome.success ⟨pszURI.data.take n⟩ ⟨pszURI.data.drop (n + 1)⟩ = _
    rw [htake, hdrop]

/-- Witness for C6 at a concrete `bucket/key` URI. -/
theorem getBucketAndObjectKey_spec_witness :
    GetBucketAndObjectKey "bucket/key" false =
      BucketKeyOutcome.success ⟨"bucket/key".data.takeWhile (fun c => c != '/')⟩
        ⟨("bucket/key".data.dropWhile (fun c => c != '/')).drop 1⟩ :=
  (getBucketAndObjectKey_spec "bucket/key" false).2.2 (by decide) (by decide)

/-! ## C7: URL building and virtual-hosting default -/

/-- C7: the built URL is `<scheme>://<endpoint>` for an empty bucket,
`<scheme>://<bucket>.<endpoint>/<url-encoded-key>` under virtual hosting,
and `<scheme>://<endpoint>/<bucket>/<url-encoded-key>` in path style, the
scheme being https iff `bUseHTTPS` and the key encoded preserving `/`; and
with the `AWS_VIRTUAL_HOSTING` option unset, virtual hosting defaults to
true iff the bucket name contains no `.`. -/
theorem buildURL_spec (osEndpoint osBucket osObjectKey : String)
    (bUseHTTPS bUseVirtualHosting : Bool) :
    (BuildURL osEndpoint "" osObjectKey bUseHTTPS bUseVirtualHosting =
      (if bUseHTTPS then "https" else "http") ++ "://" ++ osEndpoint) ∧
    (osBucket ≠ "" →
      BuildURL osEndpoint osBucket osObjectKey bUseHTTPS true =
        (if bUseHTTPS then "https" else "http") ++ "://" ++ osBucket ++ "." ++ osEndpoint ++
          "/" ++ CPLAWSURLEncodeStr osObjectKey false) ∧
    (osBucket ≠ "" →
      BuildURL osEndpoint osBucket osObjectKey bUseHTTPS false =
        (if bUseHTTPS then "https" else "http") ++ "://" ++ osEndpoint ++ "/" ++ osBucket ++
          "/" ++ CPLAWSURLEncodeStr osObjectKey false) ∧
    (bUseVirtualHostingOf none osBucket = true ↔ '.' ∉ osBucket.data) := by
  have hT : CPLTestBool "TRUE" = true := by decide
  have hF : CPLTestBool "FALSE" = false := by decide
  refine ⟨?_, fun h => ?_, fun h => ?_, ?_⟩
  · rw [BuildURL, if_pos rfl]
  · rw [BuildURL, if_neg h, if_pos rfl]
  · rw [BuildURL, if_neg h, if_neg (by simp)]
  · show CPLTestBool (Option.getD none _) = true ↔ _
    rw [Option.getD_none]
    by_cases hdot : '.' ∈ osBucket.data
    · rw [if_neg (fun hn => (strFindChar_none_iff.mp hn) hdot), hF]
      simp [hdot]
    · rw [if_pos (strFindChar_none_iff.mpr hdot), hT]
      simp [hdot]

/-- Witness for C7 at a concrete bucket and endpoint. -/
theorem buildURL_spec_witness :
    BuildURL "s3.amazonaws.com" "bucket" "key.tif" true false =
      (if true then "https" else "http") ++ "://" ++ "s3.amazonaws.com" ++ "/" ++ "bucket" ++
        "/" ++ CPLAWSURLEncodeStr "key.tif" false :=
  (buildURL_spec "s3.amazonaws.com" "bucket" "key.tif" true false).2.2.1 (by decide)

/-! ## C5: config/credentials precedence -/

/-- Credentials-file outcome used by the C5 counterexample: the credentials
file set `aws_access_key_id = AKID` and `aws_secret_access_key = SECRET`. -/
def c5CredentialsSeed : AWSConfigAccum :=
  { osAccessKeyId := "AKID", osSecretAccessKey := "SECRET", osSessionToken := "",
    osRegion := "", osRoleArn := "", osSourceProfile := "", osExternalId := "",
    osMFASerial := "", osRoleSessionName := "", osWebIdentityTokenFile := "",
    warnedKeys := [] }

/-- C5 counterexample: when the config file sets `aws_access_key_id` to the
same value as the credentials file, both files set the key but no warning is
emitted. -/
theorem updateAndWarn_counterexample :
    (mergeConfigFile c5CredentialsSeed [("aws_access_key_id", "AKID")]).osAccessKeyId =
      "AKID" ∧
    (mergeConfigFile c5CredentialsSeed [("aws_access_key_id", "AKID")]).warnedKeys = [] := by
  constructor <;> rfl

/-- C5 amended: whenever the credentials file set one of the three
credential keys (non-empty running value), the credentials-file value is the
one kept by the config-file pass, and the warning naming both files is
emitted iff the config-file value differs. -/
theorem config_credentials_precedence (osVal osNewVal : String) (h : osVal ≠ "") :
    UpdateAndWarnIfInconsistent osVal osNewVal = (osVal, decide (osVal ≠ osNewVal)) ∧
    (∀ acc : AWSConfigAccum, acc.osAccessKeyId = osVal →
      (mergeConfigEntry acc ("aws_access_key_id", osNewVal)).osAccessKeyId = osVal ∧
      (mergeConfigEntry acc ("aws_access_key_id", osNewVal)).warnedKeys =
        acc.warnedKeys ++ (if osVal ≠ osNewVal then ["aws_access_key_id"] else [])) ∧
    (∀ acc : AWSConfigAccum, acc.osSecretAccessKey = osVal →
      (mergeConfigEntry acc ("aws_secret_access_key", osNewVal)).osSecretAccessKey = osVal ∧
      (mergeConfigEntry acc ("aws_secret_access_key", osNewVal)).warnedKeys =
        acc.warnedKeys ++ (if osVal ≠ osNewVal then ["aws_secret_access_key"] else [])) ∧
    (∀ acc : AWSConfigAccum, acc.osSessionToken = osVal →
      (mergeConfigEntry acc ("aws_session_token", osNewVal)).osSessionToken = osVal ∧
      (mergeConfigEntry acc ("aws_session_token", osNewVal)).warnedKeys =
        acc.warnedKeys ++ (if osVal ≠ osNewVal then ["aws_session_token"] else [])) := by
  have hupd : UpdateAndWarnIfInconsistent osVal osNewVal = (osVal, decide (osVal ≠ osNewVal)) := by
    unfold UpdateAndWarnIfInconsistent
    rw [if_neg h]
    by_cases he : osVal ≠ osNewVal
    · rw [if_pos he]; simp [he]
    · rw [if_neg he]; simp [he]
  refine ⟨hupd, fun acc hacc => ?_, fun acc hacc => ?_, fun acc hacc => ?_⟩
  · simp only [mergeConfigEntry]
    rw [if_pos (by decide : (equalCI "aws_access_key_id" "aws_access_key_id") = true)]
    rw [hacc, hupd]
    by_cases he : osVal ≠ osNewVal <;> simp [he]
  · simp only [mergeConfigEntry]
    rw [if_neg (by decide : ¬(equalCI "aws_secret_access_key" "aws_access_key_id") = true),
      if_pos (by decide : (equalCI "aws_secret_access_key" "aws_secret_access_key") = true)]
    rw [hacc, hupd]
    by_cases he : osVal ≠ osNewVal <;> simp [he]
  · simp only [mergeConfigEntry]
    rw [if_neg (by decide : ¬(equalCI "aws_session_token" "aws_access_key_id") = true),
      if_neg (by decide : ¬(equalCI "aws_session_token" "aws_secret_access_key") = true),
      if_pos (by decide : (equalCI "aws_session_token" "aws_session_token") = true)]
    rw [hacc, hupd]
    by_cases he : osVal ≠ osNewVal <;> simp [he]

/-- Witness for C5 at a concrete differing pair. -/
theorem config_credentials_precedence_witness :
    (mergeConfigEntry c5CredentialsSeed ("aws_access_key_id", "OTHER")).osAccessKeyId =
      "AKID" ∧
    (mergeConfigEntry c5CredentialsSeed ("aws_access_key_id", "OTHER")).warnedKeys =
      c5CredentialsSeed.warnedKeys ++
        (if ("AKID" : String) ≠ "OTHER" then ["aws_access_key_id"] else []) :=
  (config_credentials_precedence "AKID" "OTHER" (by decide)).2.1 c5CredentialsSeed rfl

/-! ## C1: SigV4 signature computation -/

/-- C1: the SigV4 computation forms the string-to-sign as
`"AWS4-HMAC-SHA256\n" + timestamp + "\n" + scope + "\n" +
sha256_hex(canonical_request)` with
`scope = YYYYMMDD + "/" + region + "/" + service + "/aws4_request"`
(`YYYYMMDD` being the first 8 characters of the timestamp), derives the
signing key as
`HMAC(HMAC(HMAC(HMAC("AWS4"+secret, YYYYMMDD), region), service), "aws4_request")`,
and returns the signature `lower_hex(HMAC(signing_key, string_to_sign))`. -/
theorem sigv4_signature_formula
    (hmac : List Nat → List Nat → List Nat) (sha256 : List Nat → List Nat)
    (osSecretAccessKey osAccessToken osRegion osRequestPayer osService osVerb : String)
    (psExistingHeaders : List String)
    (osHost osCanonicalURI osCanonicalQueryString osXAMZContentSHA256 : String)
    (bAddHeaderAMZContentSHA256 : Bool) (osTimestamp : String)
    (h : 8 ≤ osTimestamp.length) :
    CPLGetAWS_SIGN4_Signature hmac sha256 osSecretAccessKey osAccessToken osRegion
        osRequestPayer osService osVerb psExistingHeaders osHost osCanonicalURI
        osCanonicalQueryString osXAMZContentSHA256 bAddHeaderAMZContentSHA256 osTimestamp =
      (CPLGetLowerCaseHex (hmac
        (hmac (hmac (hmac (hmac (strBytes ("AWS4" ++ osSecretAccessKey))
            (strBytes (⟨osTimestamp.data.take 8⟩ : String)))
          (strBytes osRegion)) (strBytes osService)) (strBytes "aws4_request"))
        (strBytes ("AWS4-HMAC-SHA256\n" ++ osTimestamp ++ "\n" ++
          ((⟨osTimestamp.data.take 8⟩ : String) ++ "/" ++ osRegion ++ "/" ++ osService ++
            "/aws4_request") ++ "\n" ++
          CPLGetLowerCaseHexSHA256 sha256 (sigV4CanonicalRequest osVerb osCanonicalURI
            osCanonicalQueryString
            (BuildCanonicalizedHeaders
              (sigV4BaseHeaders osHost osAccessToken osRequestPayer osXAMZContentSHA256
                bAddHeaderAMZContentSHA256 osTimestamp)
              psExistingHeaders "x-amz-")
            (signedHeadersOf (foldExistingHeaders
              (sigV4BaseHeaders osHost osAccessToken osRequestPayer osXAMZContentSHA256
                bAddHeaderAMZContentSHA256 osTimestamp)
              psExistingHeaders "x-amz-"))
            osXAMZContentSHA256)))),
       signedHeadersOf (foldExistingHeaders
         (sigV4BaseHeaders osHost osAccessToken osRequestPayer osXAMZContentSHA256
           bAddHeaderAMZContentSHA256 osTimestamp)
         psExistingHeaders "x-amz-")) := by
  unfold CPLGetAWS_SIGN4_Signature BuildCanonicalizedHeaders
  rw [cplStringResize_of_le osTimestamp 8 h]

/-- Witness for C1 at the AWS documentation timestamp, with trivial
primitives. -/
theorem sigv4_signature_formula_witness :
    (8 : Nat) ≤ ("20150830T123600Z" : String).length ∧
    (CPLGetAWS_SIGN4_Signature (fun _ _ => []) (fun _ => []) "SECRET" "" "us-east-1" ""
        "s3" "GET" [] "examplebucket.s3.amazonaws.com" "/" "" "UNSIGNED-PAYLOAD" true
        "20150830T123600Z").1 =
      CPLGetLowerCaseHex [] :=
  ⟨by decide, by
    have := sigv4_signature_formula (fun _ _ => []) (fun _ => []) "SECRET" "" "us-east-1"
      "" "s3" "GET" [] "examplebucket.s3.amazonaws.com" "/" "" "UNSIGNED-PAYLOAD" true
      "20150830T123600Z" (by decide)
    rw [this]⟩

/-! ## C8: redirect and region error handling -/

/-- C8: on an `<Error>` body with code `AuthorizationHeaderMalformed`
carrying a `<Region>`, `CanRestartOnError` adopts that region and returns
true; on a `PermanentRedirect` whose `<Endpoint>` starts with `<bucket>.`
while the handle is path-style (and the bucket has no dot or the header
block has no `x-amz-bucket-region`), it flips to virtual hosting, sets the
endpoint to the suffix after `<bucket>.`, and returns true. -/
theorem canRestartOnError_spec :
    (∀ (st : VSIS3HandleState) (r : String) (epOpt pszHeaders : Option String),
      CanRestartOnError st ⟨some "AuthorizationHeaderMalformed", some r, epOpt⟩ pszHeaders =
        (true, { st with m_osRegion := r }, true)) ∧
    (∀ (st : VSIS3HandleState) (ep : String) (rOpt pszHeaders : Option String),
      st.m_bUseVirtualHosting = false →
      (st.m_osBucket ++ ".").data.isPrefixOf ep.data = true →
      ((strFindChar st.m_osBucket.data '.').isSome = false ∨
        getBucketRegionFromHeaders pszHeaders = none) →
      CanRestartOnError st ⟨some "PermanentRedirect", rOpt, some ep⟩ pszHeaders =
        (true,
         { st with m_bUseVirtualHosting := true,
                   m_osEndpoint := ⟨ep.data.drop (st.m_osBucket.length + 1)⟩ },
         true)) := by
  have h1 : equalCI "AuthorizationHeaderMalformed" "AuthorizationHeaderMalformed" = true := by
    decide
  have e1 : equalCI "PermanentRedirect" "AuthorizationHeaderMalformed" = false := by decide
  have e2 : equalCI "PermanentRedirect" "PermanentRedirect" = true := by decide
  have e3 : equalCI "PermanentRedirect" "TemporaryRedirect" = false := by decide
  constructor
  · intro st r epOpt pszHeaders
    simp [CanRestartOnError, h1]
  · intro st ep rOpt pszHeaders hvh hpre hside
    have hpre' : st.m_osBucket.data ++ ['.'] <+: ep.data := by
      have hp2 := hpre
      rw [String.data_append] at hp2
      simpa [ List.isPrefixOf_iff_prefix] using hp2
    rcases hside with hs | hs <;>
      simp [CanRestartOnError, e1, e2, e3, hvh, hpre, hpre', hs]

/-- Witness for C8 on a concrete path-style handle and redirect body. -/
theorem canRestartOnError_spec_witness :
    CanRestartOnError
      { m_osSecretAccessKey := "", m_osAccessKeyId := "", m_osSessionToken := "",
        m_osEndpoint := "s3.amazonaws.com", m_osRegion := "us-east-1",
        m_osRequestPayer := "", m_osBucket := "mybucket", m_osObjectKey := "obj",
        m_bUseHTTPS := true, m_bUseVirtualHosting := false }
      ⟨some "PermanentRedirect", none, some "mybucket.s3.eu-west-1.amazonaws.com"⟩ none =
      (true,
       { m_osSecretAccessKey := "", m_osAccessKeyId := "", m_osSessionToken := "",
         m_osEndpoint := ⟨("mybucket.s3.eu-west-1.amazonaws.com" : String).data.drop
           (("mybucket" : String).length + 1)⟩, m_osRegion := "us-east-1",
         m_osRequestPayer := "", m_osBucket := "mybucket", m_osObjectKey := "obj",
         m_bUseHTTPS := true, m_bUseVirtualHosting := true },
       true) :=
  canRestartOnError_spec.2
    { m_osSecretAccessKey := "", m_osAccessKeyId := "", m_osSessionToken := "",
      m_osEndpoint := "s3.amazonaws.com", m_osRegion := "us-east-1",
      m_osRequestPayer := "", m_osBucket := "mybucket", m_osObjectKey := "obj",
      m_bUseHTTPS := true, m_bUseVirtualHosting := false }
    "mybucket.s3.eu-west-1.amazonaws.com" none none rfl (by decide) (Or.inl (by decide))

/-! ## C3: canonical headers and permutation invariance -/

/-- Insertions under distinct keys commute in the sorted map. -/
theorem mapInsert_comm (k₁ k₂ v₁ v₂ : String) (hne : k₁ ≠ k₂) :
    ∀ m : List (String × String),
      mapInsert k₁ v₁ (mapInsert k₂ v₂ m) = mapInsert k₂ v₂ (mapInsert k₁ v₁ m) := by
  intro m
  induction m with
  | nil =>
    rcases lt_trichotomy k₁.data k₂.data with h | h | h
    · simp [mapInsert, h, lt_asymm h, hne, Ne.symm hne]
    · exact absurd (String.ext h) hne
    · simp [mapInsert, h, lt_asymm h, hne, Ne.symm hne]
  | cons hd tl ih =>
    obtain ⟨k', v'⟩ := hd
    rcases lt_trichotomy k₁.data k'.data with h1 | h1 | h1
    · rcases lt_trichotomy k₂.data k'.data with h2 | h2 | h2
      · rcases lt_trichotomy k₁.data k₂.data with h3 | h3 | h3
        · simp [mapInsert, h1, h2, h3, lt_asymm h3, Ne.symm hne]
        · exact absurd (String.ext h3) hne
        · simp [mapInsert, h1, h2, h3, lt_asymm h3, hne]
      · have e := String.ext h2; subst e
        simp [mapInsert, h1, lt_asymm h1, lt_self_iff_false, hne, Ne.symm hne]
      · simp [mapInsert, h1, h2, lt_asymm h2, lt_asymm (h1.trans h2),
          Ne.symm (ne_of_data_lt h2), Ne.symm hne]
    · have e := String.ext h1; subst e
      rcases lt_trichotomy k₂.data k₁.data with h2 | h2 | h2
      · simp [mapInsert, h2, lt_asymm h2, lt_self_iff_false, hne, Ne.symm hne]
      · exact absurd (String.ext h2) (Ne.symm hne)
      · simp [mapInsert, h2, lt_asymm h2, lt_self_iff_false, hne, Ne.symm hne]
    · rcases lt_trichotomy k₂.data k'.data with h2 | h2 | h2
      · simp [mapInsert, h1, h2, lt_asymm h1, lt_asymm (h2.trans h1), hne,
          Ne.symm (ne_of_data_lt h1)]
      · have e := String.ext h2; subst e
        simp [mapInsert, h1, lt_asymm h1, lt_self_iff_false, hne, Ne.symm hne]
      · simp [mapInsert, lt_asymm h1, lt_asymm h2, Ne.symm (ne_of_data_lt h1),
          Ne.symm (ne_of_data_lt h2), ih]

/-- Folding a list of entries into the sorted map is invariant under
permutation of the entries when their keys are pairwise distinct. -/
theorem foldl_mapInsert_perm :
    ∀ {l l' : List (String × String)}, l.Perm l' → (l.map Prod.fst).Nodup →
      ∀ m : List (String × String),
        l.foldl (fun acc e => mapInsert e.1 e.2 acc) m =
          l'.foldl (fun acc e => mapInsert e.1 e.2 acc) m := by
  intro l l' hp
  induction hp with
  | nil => intro _ m; rfl
  | cons x hp ih =>
    intro hnd m
    simp only [List.foldl_cons]
    refine ih ?_ _
    rw [List.map_cons] at hnd
    exact (List.nodup_cons.mp hnd).2
  | swap x y l =>
    intro hnd m
    rw [List.map_cons, List.map_cons] at hnd
    have h0 : y.1 ∉ x.1 :: l.map Prod.fst := (List.nodup_cons.mp hnd).1
    have hxy : x.1 ≠ y.1 := fun he => h0 (List.mem_cons.mpr (Or.inl he.symm))
    simp only [List.foldl_cons]
    rw [mapInsert_comm x.1 y.1 x.2 y.2 hxy]
  | trans hp₁ hp₂ ih₁ ih₂ =>
    intro hnd m
    rw [ih₁ hnd m, ih₂ ((hp₁.map Prod.fst).nodup hnd) m]

/-- One folding step inserts exactly the entry contributed by the header. -/
theorem canonicalFoldStep_eq (stem : String) (m : List (String × String)) (data : String) :
    canonicalFoldStep stem m data =
      match canonicalFoldEntry stem data with
      | some e => mapInsert e.1 e.2 m
      | none => m := by
  unfold canonicalFoldStep canonicalFoldEntry
  by_cases h : headerMatchesCanonical stem data
  · rw [if_pos h, if_pos h]
    cases splitHeaderLine data <;> rfl
  · rw [if_neg h, if_neg h]

/-- The folding phase equals the fold of the contributed entries. -/
theorem foldExistingHeaders_eq (m : List (String × String)) (hs : List String)
    (stem : String) :
    foldExistingHeaders m hs stem =
      (hs.filterMap (canonicalFoldEntry stem)).foldl
        (fun acc e => mapInsert e.1 e.2 acc) m := by
  induction hs generalizing m with
  | nil => rfl
  | cons d t ih =>
    have hstep : foldExistingHeaders m (d :: t) stem =
        foldExistingHeaders (canonicalFoldStep stem m d) t stem := rfl
    rw [hstep, ih (canonicalFoldStep stem m d), canonicalFoldStep_eq, List.filterMap_cons]
    cases h : canonicalFoldEntry stem d
    · simp
    · simp

/-- C3 counterexample: two existing headers with the same lowercased name
but different values give different canonical-headers output after a
permutation (the last occurrence wins), so the output is not invariant under
every permutation. -/
theorem buildCanonicalizedHeaders_counterexample :
    (["x-amz-a: 1", "x-amz-a: 2"] : List String).Perm ["x-amz-a: 2", "x-amz-a: 1"] ∧
    BuildCanonicalizedHeaders [] ["x-amz-a: 1", "x-amz-a: 2"] "x-amz-" ≠
      BuildCanonicalizedHeaders [] ["x-amz-a: 2", "x-amz-a: 1"] "x-amz-" := by
  constructor
  · exact List.Perm.swap _ _ _
  · decide

/-- C3 amended: when the folded existing headers have pairwise-distinct
lowercased names, the canonical-headers output is invariant under any
permutation of the existing-headers list, and it is the render of the sorted
map obtained by folding in exactly the matching headers (lowercased names,
trimmed values); with duplicate names the last occurrence in list order
wins, so invariance can fail. -/
theorem buildCanonicalizedHeaders_perm (oSortedMapHeaders : List (String × String))
    (hs hs' : List String) (stem : String) (hperm : hs.Perm hs')
    (hnd : ((hs.filterMap (canonicalFoldEntry stem)).map Prod.fst).Nodup) :
    BuildCanonicalizedHeaders oSortedMapHeaders hs stem =
      BuildCanonicalizedHeaders oSortedMapHeaders hs' stem ∧
    BuildCanonicalizedHeaders oSortedMapHeaders hs stem =
      renderHeaders ((hs.filterMap (canonicalFoldEntry stem)).foldl
        (fun acc e => mapInsert e.1 e.2 acc) oSortedMapHeaders) := by
  unfold BuildCanonicalizedHeaders
  rw [foldExistingHeaders_eq, foldExistingHeaders_eq]
  exact ⟨congrArg renderHeaders (foldl_mapInsert_perm (hperm.filterMap _) hnd _), rfl⟩

/-- Witness for C3 at two distinct header names. -/
theorem buildCanonicalizedHeaders_perm_witness :
    BuildCanonicalizedHeaders [] ["x-amz-b: 2", "x-amz-a: 1"] "x-amz-" =
      BuildCanonicalizedHeaders [] ["x-amz-a: 1", "x-amz-b: 2"] "x-amz-" :=
  (buildCanonicalizedHeaders_perm [] ["x-amz-b: 2", "x-amz-a: 1"]
    ["x-amz-a: 1", "x-amz-b: 2"] "x-amz-" (List.Perm.swap _ _ _) (by decide)).1
